import Mathlib

/-!
Verification of `src/statsf1_scrape.py` against its specification.

The script is embedded shallowly:

* Network fetches and HTML parsing are abstracted at their natural boundary:
  slug discovery receives the list of anchor `href` attribute values found on
  the page, the freshness loop receives a map from slug to the outcome of its
  HEAD probe, and `scrape_tables` receives the list of tables that
  `pd.read_html` parsed out of the page.
* Python `datetime` values compared in the freshness loop are modelled as
  naturals under the order-embedding sending `datetime.min` to `0`; a parsed
  `Last-Modified` header is an arbitrary natural (note `datetime.min` itself
  is expressible as a header, e.g. "Mon, 01 Jan 0001 00:00:00 GMT").
* Python strings are Lean strings; slicing, `strip` and `re.sub` operate on
  the list of characters, matching Python code-point semantics.
-/

/-- Characters accepted by the slug character class `[a-z0-9\-]` used both in
the discovery regex (line 42) and in the defensive re-validation (line 53). -/
def slugChar (c : Char) : Bool :=
  ('a' ≤ c && c ≤ 'z') || ('0' ≤ c && c ≤ '9') || c = '-'

/-- ASCII whitespace stripped by Python `str.strip()`. -/
def pySpace (c : Char) : Bool :=
  c = ' ' || c = '\t' || c = '\n' || c = '\r' || c = '\x0b' || c = '\x0c'

/-- Python `str.strip()`: remove leading and trailing whitespace. -/
def pyStrip (s : String) : String :=
  String.mk (((s.data.dropWhile pySpace).reverse.dropWhile pySpace).reverse)

/-- Consume a literal sequence of characters from the front of a list,
returning the remainder on success. -/
def dropLit : List Char → List Char → Option (List Char)
  | [], l => some l
  | _ :: _, [] => none
  | p :: ps, c :: cs => if p = c then dropLit ps cs else none

/-- The anchor-target pattern of `get_race_slugs_for_year` (line 42):
`re.match(rf"^/en/{year}/([a-z0-9\-]+)(?:/|\.aspx)", href)`, returning the
captured slug.  Since `/` and `.` are outside the slug character class, the
greedy `+` together with backtracking is equivalent to taking the maximal
run of slug characters and requiring the remainder to start with `/` or
with `.aspx`. -/
def matchSlug (year : Nat) (href : String) : Option String :=
  match dropLit ("/en/" ++ toString year ++ "/").data href.data with
  | none => none
  | some rest =>
    let slug := rest.takeWhile slugChar
    let after := rest.drop slug.length
    if slug.isEmpty then none
    else if (dropLit ['/'] after).isSome || (dropLit ['.', 'a', 's', 'p', 'x'] after).isSome then
      some (String.mk slug)
    else none

/-- Insert a string into a `<`-sorted duplicate-free list, keeping it sorted
and duplicate-free. -/
def insertSlug (x : String) : List String → List String
  | [] => [x]
  | y :: ys =>
    if x = y then y :: ys
    else if x < y then x :: y :: ys
    else y :: insertSlug x ys

/-- `sorted(set(l))` for Python strings: the sorted list of distinct
elements, under the code-point lexicographic order. -/
def sortedUnique : List String → List String
  | [] => []
  | x :: xs => insertSlug x (sortedUnique xs)

/-- `get_race_slugs_for_year` (lines 25-46), abstracted over the list of
anchor `href` attribute values found on the fetched page: each href is
stripped, matched against the slug pattern, and the set of captured slugs is
returned sorted. -/
def get_race_slugs_for_year (year : Nat) (hrefs : List String) : List String :=
  sortedUnique (hrefs.filterMap (fun h => matchSlug year (pyStrip h)))

/-- Outcome of the HEAD probe of one candidate slug inside the `try` block
of `pick_latest_race_slug` (lines 56-71).  `err` covers any raised
exception: network error, timeout, or a `Last-Modified` header on which
`strptime` fails.  `ok status lm` is a completed HEAD request with its
status code and, when the header is present and parses, the parsed
timestamp (`datetime.min` is `0`). -/
inductive Probe where
  | err : Probe
  | ok : Nat → Option Nat → Probe
deriving DecidableEq

/-- `re.fullmatch(r"[a-z0-9\-]+", slug)` (line 53): non-empty and all
characters in the slug class. -/
def isValidSlug (s : String) : Bool :=
  !s.data.isEmpty && s.data.all slugChar

/-- Timestamp used for a successful probe: the parsed `Last-Modified` value,
or `datetime.min` (modelled as `0`) when the header is absent (lines 61-65). -/
def tsOf : Option Nat → Nat
  | some v => v
  | none => 0

/-- The candidate loop of `pick_latest_race_slug` (lines 52-71), threading
`best` and `best_dt`.  A new candidate wins only when `best_dt is None or
t > best_dt`. -/
def pickLoop (probe : String → Probe) :
    List String → Option String → Option Nat → Option String
  | [], best, _ => best
  | slug :: rest, best, bestDt =>
    if isValidSlug slug then
      match probe slug with
      | Probe.err => pickLoop probe rest best bestDt
      | Probe.ok status lm =>
        if 400 ≤ status then pickLoop probe rest best bestDt
        else
          match bestDt with
          | none => pickLoop probe rest (some slug) (some (tsOf lm))
          | some b =>
            if b < tsOf lm then pickLoop probe rest (some slug) (some (tsOf lm))
            else pickLoop probe rest best bestDt
    else pickLoop probe rest best bestDt

/-- `pick_latest_race_slug` (lines 48-75).  After the loop, `if not best:
raise RuntimeError(...)` rejects both `None` and the (unreachable) empty
string; otherwise the best slug is returned. -/
def pick_latest_race_slug (probe : String → Probe) (slugs : List String) :
    Except String String :=
  match pickLoop probe slugs none none with
  | some best =>
    if best = "" then Except.error "Could not determine latest race slug for this year."
    else Except.ok best
  | none => Except.error "Could not determine latest race slug for this year."

/-- A Python value that can appear as a pandas column label. -/
inductive PyVal where
  | str : String → PyVal
  | int : Int → PyVal
deriving DecidableEq

/-- Python `str()` on a column label. -/
def pyStr : PyVal → String
  | PyVal.str s => s
  | PyVal.int n => toString n

/-- A pandas DataFrame as produced by `pd.read_html`: column labels and row
data. -/
structure DataFrame where
  columns : List PyVal
  rows : List (List PyVal)
deriving DecidableEq

/-- `scrape_tables` (lines 77-83), abstracted over the list of tables parsed
from the page by `pd.read_html`: for each table, `df.columns = [str(c).strip()
for c in df.columns]`, leaving the rows untouched, and the tables are
returned in parse order. -/
def scrape_tables (dfs : List DataFrame) : List DataFrame :=
  dfs.map fun df =>
    { df with columns := df.columns.map (fun c => PyVal.str (pyStrip (pyStr c))) }

/-- The forbidden sheet-name characters of `safe_sheet_name` (line 86):
the class `[:\\/?*\[\]]`. -/
def badChar (c : Char) : Bool :=
  c = ':' || c = '\\' || c = '/' || c = '?' || c = '*' || c = '[' || c = ']'

/-- The per-character action of `re.sub(bad, "-", name)`: a forbidden
character becomes a hyphen, everything else is unchanged. -/
def sanitizeChar (c : Char) : Char :=
  if badChar c then '-' else c

/-- `safe_sheet_name` (lines 85-88): `re.sub` replaces each forbidden
character with a hyphen, then `name[:31]` keeps the first 31 code points. -/
def safe_sheet_name (name : String) : String :=
  String.mk ((name.data.map sanitizeChar).take 31)

/-- A Python `datetime.datetime` as observed by `strftime("%Y%m%d_%H%M")`. -/
structure PyDateTime where
  year : Nat
  month : Nat
  day : Nat
  hour : Nat
  minute : Nat
  second : Nat
deriving DecidableEq

/-- Zero-pad a natural to two digits, as `strftime` does for `%m %d %H %M`. -/
def pad2 (n : Nat) : String :=
  if n < 10 then "0" ++ toString n else toString n

/-- Zero-pad a natural to four digits, as `strftime` does for `%Y`. -/
def pad4 (n : Nat) : String :=
  if n < 10 then "000" ++ toString n
  else if n < 100 then "00" ++ toString n
  else if n < 1000 then "0" ++ toString n
  else toString n

/-- `dt.datetime.now().strftime("%Y%m%d_%H%M")` (line 97) applied to the
run's wall-clock time: minute resolution, seconds discarded. -/
def fmtRunTimestamp (d : PyDateTime) : String :=
  pad4 d.year ++ pad2 d.month ++ pad2 d.day ++ "_" ++ pad2 d.hour ++ pad2 d.minute

/-- The output workbook name `f"statsf1_{YEAR}_{latest_slug}_{timestamp}.xlsx"`
(line 98). -/
def outFileName (year : Nat) (slug : String) (timestamp : String) : String :=
  "statsf1_" ++ toString year ++ "_" ++ slug ++ "_" ++ timestamp ++ ".xlsx"

/-- A probe succeeded: the HEAD request completed with a status below 400
(and any present header parsed). -/
def probeSucceeded (probe : String → Probe) (s : String) : Prop :=
  ∃ status lm, probe s = Probe.ok status lm ∧ status < 400

/-- A candidate is skipped by the loop: it fails re-validation, its probe
raises, or its probe returns a status ≥ 400. -/
def probeSkipped (probe : String → Probe) (s : String) : Prop :=
  isValidSlug s = false ∨ probe s = Probe.err ∨
    ∃ status lm, probe s = Probe.ok status lm ∧ 400 ≤ status

/-! ## Helper lemmas -/

theorem badChar_sanitizeChar (c : Char) : badChar (sanitizeChar c) = false := by
  unfold sanitizeChar
  by_cases h : badChar c = true
  · rw [if_pos h]; decide
  · rw [if_neg h]; exact Bool.eq_false_iff.mpr h

theorem sanitizeChar_idem (c : Char) : sanitizeChar (sanitizeChar c) = sanitizeChar c := by
  unfold sanitizeChar
  by_cases h : badChar c = true
  · rw [if_pos h]; decide
  · rw [if_neg h, if_neg h]

theorem map_sanitize_idem : ∀ (l : List Char),
    (l.map sanitizeChar).map sanitizeChar = l.map sanitizeChar
  | [] => rfl
  | c :: cs => by
    simp only [List.map_cons, sanitizeChar_idem, map_sanitize_idem cs]

/-! ## C6: safe_sheet_name -/

/-- C6: `safe_sheet_name` is idempotent, its output has at most 31
characters, and its output contains none of the forbidden characters
`: \ / ? * [ ]`. -/
theorem safe_sheet_name_spec (s : String) :
    safe_sheet_name (safe_sheet_name s) = safe_sheet_name s ∧
    (safe_sheet_name s).length ≤ 31 ∧
    ((safe_sheet_name s).data.all fun c => !(badChar c)) = true := by
  refine ⟨?_, ?_, ?_⟩
  · show String.mk (((((s.data.map sanitizeChar).take 31) : List Char).map sanitizeChar).take 31) =
      String.mk ((s.data.map sanitizeChar).take 31)
    congr 1
    rw [List.map_take, map_sanitize_idem, List.take_take, Nat.min_self]
  · show ((s.data.map sanitizeChar).take 31).length ≤ 31
    rw [List.length_take]
    exact Nat.min_le_left _ _
  · rw [List.all_eq_true]
    intro c hc
    have hc' : c ∈ s.data.map sanitizeChar := List.take_subset _ _ hc
    rcases List.mem_map.mp hc' with ⟨d, _, rfl⟩
    rw [badChar_sanitizeChar]
    rfl

/-! ## C10: scrape_tables -/

/-- C10: `scrape_tables` returns exactly one table per parsed table, in parse
order; each output table's columns are the input columns converted with
`str(c).strip()`, and each output table's rows equal the input rows. -/
theorem scrape_tables_spec (dfs : List DataFrame) :
    (scrape_tables dfs).length = dfs.length ∧
    (scrape_tables dfs).map DataFrame.rows = dfs.map DataFrame.rows ∧
    (scrape_tables dfs).map DataFrame.columns =
      dfs.map (fun df => df.columns.map (fun c => PyVal.str (pyStrip (pyStr c)))) := by
  refine ⟨List.length_map _ _, ?_, ?_⟩
  · rw [scrape_tables, List.map_map]
    rfl
  · rw [scrape_tables, List.map_map]
    rfl

/-! ## C3: output file naming -/

/-- Counterexample to C3 as stated: two runs at distinct wall-clock times
(30 seconds apart, within the same calendar minute) produce the same
workbook file name, because the run timestamp has minute resolution. -/
theorem outFileName_collision_counterexample :
    (⟨2025, 12, 3, 10, 0, 0⟩ : PyDateTime) ≠ ⟨2025, 12, 3, 10, 0, 30⟩ ∧
    outFileName 2025 "abou-dhabi" (fmtRunTimestamp ⟨2025, 12, 3, 10, 0, 0⟩) =
      outFileName 2025 "abou-dhabi" (fmtRunTimestamp ⟨2025, 12, 3, 10, 0, 30⟩) := by
  constructor
  · decide
  · rfl

/-- C3 (amended): the file name is built deterministically as
`statsf1_{year}_{slug}_{YYYYMMDD_HHMM}.xlsx`; two runs with the same year and
slug whose formatted minute-resolution timestamps differ get distinct file
names (runs within the same calendar minute collide). -/
theorem outFileName_distinct_timestamps (year : Nat) (slug : String)
    (d₁ d₂ : PyDateTime) (h : fmtRunTimestamp d₁ ≠ fmtRunTimestamp d₂) :
    outFileName year slug (fmtRunTimestamp d₁) ≠ outFileName year slug (fmtRunTimestamp d₂) := by
  intro he
  apply h
  unfold outFileName at he
  have hd := congrArg String.data he
  simp only [String.data_append] at hd
  exact String.ext (List.append_cancel_left (List.append_cancel_right hd))

/-- Witness for the amended C3 theorem at concrete run times one minute
apart. -/
theorem outFileName_distinct_timestamps_witness :
    outFileName 2025 "abou-dhabi" (fmtRunTimestamp ⟨2025, 12, 3, 10, 0, 0⟩) ≠
      outFileName 2025 "abou-dhabi" (fmtRunTimestamp ⟨2025, 12, 3, 10, 1, 0⟩) :=
  outFileName_distinct_timestamps 2025 "abou-dhabi" ⟨2025, 12, 3, 10, 0, 0⟩
    ⟨2025, 12, 3, 10, 1, 0⟩ (by decide)

/-! ## Loop invariants of pick_latest_race_slug -/

theorem isValidSlug_ne_empty {s : String} (h : isValidSlug s = true) : s ≠ "" := by
  rintro rfl
  exact absurd h (by decide)

theorem pickLoop_best_mem (probe : String → Probe) :
    ∀ (slugs : List String) (best : Option String) (bestDt : Option Nat) (s : String),
      pickLoop probe slugs best bestDt = some s → s ∈ slugs ∨ best = some s := by
  intro slugs
  induction slugs with
  | nil =>
    intro best bestDt s h
    right
    simpa [pickLoop] using h
  | cons x xs ih =>
    intro best bestDt s h
    simp only [pickLoop] at h
    by_cases hv : isValidSlug x = true
    · rw [if_pos hv] at h
      cases hp : probe x with
      | err =>
        rw [hp] at h
        dsimp only at h
        rcases ih _ _ _ h with hm | hb
        · exact Or.inl (List.mem_cons_of_mem _ hm)
        · exact Or.inr hb
      | ok status lm =>
        rw [hp] at h
        dsimp only at h
        by_cases hs : 400 ≤ status
        · rw [if_pos hs] at h
          rcases ih _ _ _ h with hm | hb
          · exact Or.inl (List.mem_cons_of_mem _ hm)
          · exact Or.inr hb
        · rw [if_neg hs] at h
          cases bestDt with
          | none =>
            rcases ih _ _ _ h with hm | hb
            · exact Or.inl (List.mem_cons_of_mem _ hm)
            · injection hb with hxs
              subst hxs
              exact Or.inl (List.mem_cons_self _ _)
          | some b =>
            dsimp only at h
            by_cases hlt : b < tsOf lm
            · rw [if_pos hlt] at h
              rcases ih _ _ _ h with hm | hb
              · exact Or.inl (List.mem_cons_of_mem _ hm)
              · injection hb with hxs
                subst hxs
                exact Or.inl (List.mem_cons_self _ _)
            · rw [if_neg hlt] at h
              rcases ih _ _ _ h with hm | hb
              · exact Or.inl (List.mem_cons_of_mem _ hm)
              · exact Or.inr hb
    · rw [if_neg hv] at h
      rcases ih _ _ _ h with hm | hb
      · exact Or.inl (List.mem_cons_of_mem _ hm)
      · exact Or.inr hb

theorem pickLoop_best_successful (probe : String → Probe) :
    ∀ (slugs : List String) (best : Option String) (bestDt : Option Nat) (s : String),
      (∀ x, best = some x → probeSucceeded probe x) →
      pickLoop probe slugs best bestDt = some s → probeSucceeded probe s := by
  intro slugs
  induction slugs with
  | nil =>
    intro best bestDt s hinv h
    exact hinv s (by simpa [pickLoop] using h)
  | cons x xs ih =>
    intro best bestDt s hinv h
    simp only [pickLoop] at h
    by_cases hv : isValidSlug x = true
    · rw [if_pos hv] at h
      cases hp : probe x with
      | err =>
        rw [hp] at h
        dsimp only at h
        exact ih _ _ _ hinv h
      | ok status lm =>
        rw [hp] at h
        dsimp only at h
        by_cases hs : 400 ≤ status
        · rw [if_pos hs] at h
          exact ih _ _ _ hinv h
        · rw [if_neg hs] at h
          have hnew : ∀ y, (some x : Option String) = some y → probeSucceeded probe y := by
            intro y hy
            injection hy with hxy
            subst hxy
            exact ⟨status, lm, hp, by omega⟩
          cases bestDt with
          | none => exact ih _ _ _ hnew h
          | some b =>
            dsimp only at h
            by_cases hlt : b < tsOf lm
            · rw [if_pos hlt] at h
              exact ih _ _ _ hnew h
            · rw [if_neg hlt] at h
              exact ih _ _ _ hinv h
    · rw [if_neg hv] at h
      exact ih _ _ _ hinv h

theorem pickLoop_all_skipped (probe : String → Probe) :
    ∀ (slugs : List String) (best : Option String) (bestDt : Option Nat),
      (∀ s ∈ slugs, probeSkipped probe s) → pickLoop probe slugs best bestDt = best := by
  intro slugs
  induction slugs with
  | nil =>
    intro best bestDt _
    simp [pickLoop]
  | cons x xs ih =>
    intro best bestDt hall
    have hx := hall x (List.mem_cons_self x xs)
    have hrest : ∀ s ∈ xs, probeSkipped probe s :=
      fun s hs => hall s (List.mem_cons_of_mem _ hs)
    simp only [pickLoop]
    by_cases hv : isValidSlug x = true
    · rw [if_pos hv]
      rcases hx with hv' | hp | ⟨status, lm, hp, hs⟩
      · rw [hv'] at hv
        cases hv
      · rw [hp]
        dsimp only
        exact ih _ _ hrest
      · rw [hp]
        dsimp only
        rw [if_pos hs]
        exact ih _ _ hrest
    · rw [if_neg hv]
      exact ih _ _ hrest

/-! ## C2: the selected slug always comes from a successful probe -/

/-- C2: whenever `pick_latest_race_slug` returns a slug, that slug's HEAD
probe completed without raising (no network error, no timeout, no header
parse failure) and returned a status below 400. -/
theorem pick_latest_race_slug_successful (probe : String → Probe)
    (slugs : List String) (s : String)
    (h : pick_latest_race_slug probe slugs = Except.ok s) :
    probeSucceeded probe s := by
  unfold pick_latest_race_slug at h
  cases hl : pickLoop probe slugs none none with
  | none =>
    rw [hl] at h
    cases h
  | some best =>
    rw [hl] at h
    dsimp only at h
    by_cases hb : best = ""
    · rw [if_pos hb] at h
      cases h
    · rw [if_neg hb] at h
      injection h with hbs
      subst hbs
      exact pickLoop_best_successful probe slugs none none best (fun y hy => nomatch hy) hl

/-- Witness for C2: a concrete probe map and candidate list on which the
selector returns "aa", whose probe returned 200. -/
theorem pick_latest_race_slug_successful_witness :
    probeSucceeded (fun s => if s = "aa" then Probe.ok 200 (some 5) else Probe.err) "aa" :=
  pick_latest_race_slug_successful
    (fun s => if s = "aa" then Probe.ok 200 (some 5) else Probe.err) ["aa", "bb"] "aa" rfl

/-! ## C8: the selected slug is always one of the candidates -/

/-- C8: whenever `pick_latest_race_slug` returns a slug, the slug is an
element of the candidate list it was given. -/
theorem pick_latest_race_slug_mem (probe : String → Probe)
    (slugs : List String) (s : String)
    (h : pick_latest_race_slug probe slugs = Except.ok s) :
    s ∈ slugs := by
  unfold pick_latest_race_slug at h
  cases hl : pickLoop probe slugs none none with
  | none =>
    rw [hl] at h
    cases h
  | some best =>
    rw [hl] at h
    dsimp only at h
    by_cases hb : best = ""
    · rw [if_pos hb] at h
      cases h
    · rw [if_neg hb] at h
      injection h with hbs
      subst hbs
      rcases pickLoop_best_mem probe slugs none none best hl with hm | hnone
      · exact hm
      · cases hnone

/-- Witness for C8 on a concrete probe map and candidate list. -/
theorem pick_latest_race_slug_mem_witness : "aa" ∈ ["zz", "aa"] :=
  pick_latest_race_slug_mem
    (fun s => if s = "aa" then Probe.ok 200 (some 3) else Probe.ok 500 none)
    ["zz", "aa"] "aa" rfl

/-! ## C7: selection failure when every candidate is skipped -/

/-- C7: when every candidate is skipped (fails re-validation, raises during
its probe, or returns a status ≥ 400), `pick_latest_race_slug` terminates
with the error rather than returning any slug. -/
theorem pick_latest_race_slug_all_skipped (probe : String → Probe)
    (slugs : List String) (h : ∀ s ∈ slugs, probeSkipped probe s) :
    pick_latest_race_slug probe slugs =
      Except.error "Could not determine latest race slug for this year." := by
  unfold pick_latest_race_slug
  rw [pickLoop_all_skipped probe slugs none none h]

/-- Witness for C7: one candidate probes 404, one raises, one fails
re-validation; the selector errors out. -/
theorem pick_latest_race_slug_all_skipped_witness :
    pick_latest_race_slug (fun s => if s = "aa" then Probe.ok 404 none else Probe.err)
      ["aa", "bb", "Bad!"] =
      Except.error "Could not determine latest race slug for this year." :=
  pick_latest_race_slug_all_skipped _ _ (by
    intro s hs
    simp only [List.mem_cons, List.not_mem_nil, or_false] at hs
    rcases hs with rfl | rfl | rfl
    · exact Or.inr (Or.inr ⟨404, none, rfl, by omega⟩)
    · exact Or.inr (Or.inl rfl)
    · exact Or.inl (by decide))

/-! ## C4: header presence vs. absence -/

/-- Counterexample to C4 as stated: candidate "aa" probes successfully with
no `Last-Modified` header, candidate "bb" probes successfully with a header
that parses validly to `datetime.min` itself (e.g. "Mon, 01 Jan 0001
00:00:00 GMT").  Both candidates get timestamp `datetime.min`, the strict
`t > best_dt` comparison keeps the first-seen candidate, and the selector
returns the headerless "aa" rather than "bb". -/
theorem pick_header_absent_counterexample :
    pick_latest_race_slug
      (fun s => if s = "aa" then Probe.ok 200 none else Probe.ok 200 (some 0))
      ["aa", "bb"] = Except.ok "aa" ∧
    pick_latest_race_slug
      (fun s => if s = "aa" then Probe.ok 200 none else Probe.ok 200 (some 0))
      ["aa", "bb"] ≠ Except.ok "bb" := by
  refine ⟨rfl, ?_⟩
  intro h
  have h2 : (Except.ok "aa" : Except String String) = Except.ok "bb" := h
  injection h2 with h3
  exact absurd h3 (by decide)

/-- C4 (amended): when one candidate probes successfully with no
`Last-Modified` header and the other probes successfully with a header
parsing to a timestamp strictly later than `datetime.min`, the candidate
with the header wins regardless of iteration order.  (A header parsing
exactly to `datetime.min` instead ties with the headerless candidate and
the first-seen candidate wins.) -/
theorem pick_latest_race_slug_prefers_header (probe : String → Probe)
    (a b : String) (ca cb t : Nat)
    (hva : isValidSlug a = true) (hvb : isValidSlug b = true)
    (hpa : probe a = Probe.ok ca none) (hca : ca < 400)
    (hpb : probe b = Probe.ok cb (some t)) (hcb : cb < 400) (ht : 0 < t) :
    pick_latest_race_slug probe [a, b] = Except.ok b ∧
    pick_latest_race_slug probe [b, a] = Except.ok b := by
  have hbne : b ≠ "" := isValidSlug_ne_empty hvb
  have h1 : ¬400 ≤ ca := by omega
  have h2 : ¬400 ≤ cb := by omega
  constructor
  · simp [pick_latest_race_slug, pickLoop, hva, hvb, hpa, hpb, tsOf, h1, h2, ht, hbne]
  · simp [pick_latest_race_slug, pickLoop, hva, hvb, hpa, hpb, tsOf, h1, h2, hbne]

/-- Witness for the amended C4 theorem on a concrete probe map: "bb" has a
header parsing strictly later than `datetime.min` and wins in both orders. -/
theorem pick_latest_race_slug_prefers_header_witness :
    pick_latest_race_slug
      (fun s => if s = "aa" then Probe.ok 200 none else Probe.ok 200 (some 7))
      ["aa", "bb"] = Except.ok "bb" ∧
    pick_latest_race_slug
      (fun s => if s = "aa" then Probe.ok 200 none else Probe.ok 200 (some 7))
      ["bb", "aa"] = Except.ok "bb" :=
  pick_latest_race_slug_prefers_header
    (fun s => if s = "aa" then Probe.ok 200 none else Probe.ok 200 (some 7))
    "aa" "bb" 200 200 7 (by decide) (by decide) rfl (by omega) rfl (by omega) (by omega)

/-! ## C5: stable tie-break on equal timestamps -/

/-- C5: when two candidates both probe successfully with identical parsed
`Last-Modified` timestamps, the selector returns the first of the two in
iteration order. -/
theorem pick_latest_race_slug_tie_first (probe : String → Probe)
    (a b : String) (ca cb t : Nat)
    (hva : isValidSlug a = true) (hvb : isValidSlug b = true)
    (hpa : probe a = Probe.ok ca (some t)) (hca : ca < 400)
    (hpb : probe b = Probe.ok cb (some t)) (hcb : cb < 400) :
    pick_latest_race_slug probe [a, b] = Except.ok a := by
  have hane : a ≠ "" := isValidSlug_ne_empty hva
  have h1 : ¬400 ≤ ca := by omega
  have h2 : ¬400 ≤ cb := by omega
  simp [pick_latest_race_slug, pickLoop, hva, hvb, hpa, hpb, tsOf, h1, h2, hane]

/-- Witness for C5 on a concrete probe map: both candidates carry timestamp
9; the first-listed candidate wins. -/
theorem pick_latest_race_slug_tie_first_witness :
    pick_latest_race_slug
      (fun s => if s = "aa" then Probe.ok 200 (some 9) else Probe.ok 302 (some 9))
      ["aa", "bb"] = Except.ok "aa" :=
  pick_latest_race_slug_tie_first
    (fun s => if s = "aa" then Probe.ok 200 (some 9) else Probe.ok 302 (some 9))
    "aa" "bb" 200 302 9 (by decide) (by decide) rfl (by omega) rfl (by omega)

/-! ## Sorted deduplication helpers for slug discovery -/

theorem mem_insertSlug {s x : String} :
    ∀ {l : List String}, s ∈ insertSlug x l ↔ s = x ∨ s ∈ l := by
  intro l
  induction l with
  | nil => simp [insertSlug]
  | cons y ys ih =>
    simp only [insertSlug]
    by_cases h1 : x = y
    · subst h1
      rw [if_pos rfl]
      simp only [List.mem_cons]
      tauto
    · rw [if_neg h1]
      by_cases h2 : x < y
      · rw [if_pos h2]
        simp only [List.mem_cons]
      · rw [if_neg h2]
        simp only [List.mem_cons, ih]
        tauto

theorem pairwise_insertSlug {x : String} :
    ∀ {l : List String}, l.Pairwise (· < ·) → (insertSlug x l).Pairwise (· < ·) := by
  intro l
  induction l with
  | nil =>
    intro _
    simp [insertSlug]
  | cons y ys ih =>
    intro h
    rcases List.pairwise_cons.mp h with ⟨hy, hys⟩
    simp only [insertSlug]
    by_cases h1 : x = y
    · rw [if_pos h1]
      exact h
    · rw [if_neg h1]
      by_cases h2 : x < y
      · rw [if_pos h2]
        refine List.pairwise_cons.mpr ⟨?_, h⟩
        intro z hz
        rcases List.mem_cons.mp hz with rfl | hz'
        · exact h2
        · exact lt_trans h2 (hy z hz')
      · rw [if_neg h2]
        have hyx : y < x := lt_of_le_of_ne (not_lt.mp h2) (fun he => h1 he.symm)
        refine List.pairwise_cons.mpr ⟨?_, ih hys⟩
        intro z hz
        rcases mem_insertSlug.mp hz with rfl | hz'
        · exact hyx
        · exact hy z hz'

theorem mem_sortedUnique {s : String} :
    ∀ {l : List String}, s ∈ sortedUnique l ↔ s ∈ l := by
  intro l
  induction l with
  | nil => simp [sortedUnique]
  | cons x xs ih =>
    simp only [sortedUnique, mem_insertSlug, List.mem_cons, ih]

theorem pairwise_sortedUnique : ∀ (l : List String), (sortedUnique l).Pairwise (· < ·)
  | [] => List.Pairwise.nil
  | _ :: xs => pairwise_insertSlug (pairwise_sortedUnique xs)

/-! ## C1: slug discovery returns the sorted unique matched slugs -/

/-- C1: for any list of anchor href targets, `get_race_slugs_for_year`
returns a strictly sorted, duplicate-free list whose members are exactly
the slugs captured by the pattern `/en/{year}/([a-z0-9-]+)(?:/|.aspx)` on
the stripped hrefs: duplicates collapse and malformed targets contribute
nothing. -/
theorem get_race_slugs_for_year_spec (year : Nat) (hrefs : List String) :
    (get_race_slugs_for_year year hrefs).Pairwise (· < ·) ∧
    (get_race_slugs_for_year year hrefs).Nodup ∧
    ∀ s : String, s ∈ get_race_slugs_for_year year hrefs ↔
      ∃ h ∈ hrefs, matchSlug year (pyStrip h) = some s := by
  refine ⟨pairwise_sortedUnique _, List.Pairwise.imp ne_of_lt (pairwise_sortedUnique _), ?_⟩
  intro s
  rw [get_race_slugs_for_year, mem_sortedUnique, List.mem_filterMap]

/-! ## C9: discovered slugs always pass the defensive re-validation -/

theorem all_takeWhile_self (p : Char → Bool) :
    ∀ (l : List Char), ((l.takeWhile p).all p) = true
  | [] => rfl
  | c :: cs => by
    simp only [List.takeWhile]
    by_cases h : p c = true
    · rw [h]
      simp only [List.all_cons, h, all_takeWhile_self p cs, Bool.and_self]
    · rw [Bool.eq_false_iff.mpr h]
      rfl

theorem matchSlug_valid {year : Nat} {h s : String}
    (hm : matchSlug year h = some s) : isValidSlug s = true := by
  unfold matchSlug at hm
  cases hd : dropLit ("/en/" ++ toString year ++ "/").data h.data with
  | none =>
    rw [hd] at hm
    cases hm
  | some rest =>
    rw [hd] at hm
    dsimp only at hm
    by_cases he : (rest.takeWhile slugChar).isEmpty = true
    · rw [if_pos he] at hm
      cases hm
    · rw [if_neg he] at hm
      by_cases hafter :
          ((dropLit ['/'] (rest.drop (rest.takeWhile slugChar).length)).isSome ||
            (dropLit ['.', 'a', 's', 'p', 'x']
              (rest.drop (rest.takeWhile slugChar).length)).isSome) = true
      · rw [if_pos hafter] at hm
        injection hm with hms
        subst hms
        unfold isValidSlug
        rw [show (String.mk (rest.takeWhile slugChar)).data = rest.takeWhile slugChar from rfl,
          Bool.eq_false_iff.mpr he, all_takeWhile_self]
        rfl
      · rw [if_neg hafter] at hm
        cases hm

/-- Witness for the membership characterization of C1: on a concrete page,
the slug of a well-formed href is discovered. -/
theorem get_race_slugs_for_year_spec_witness :
    "abou-dhabi" ∈ get_race_slugs_for_year 2025
      ["/en/2025/abou-dhabi/classement.aspx", "/en/2024/monza.aspx"] :=
  ((get_race_slugs_for_year_spec 2025
      ["/en/2025/abou-dhabi/classement.aspx", "/en/2024/monza.aspx"]).2.2 "abou-dhabi").mpr
    ⟨"/en/2025/abou-dhabi/classement.aspx", by decide, by decide⟩

/-- C9: every slug returned by `get_race_slugs_for_year` fully matches
`[a-z0-9-]+` (non-empty, only slug-class characters), so the defensive
re-validation at the head of the selector loop never skips a discovered
slug. -/
theorem get_race_slugs_for_year_valid (year : Nat) (hrefs : List String)
    (s : String) (h : s ∈ get_race_slugs_for_year year hrefs) :
    isValidSlug s = true := by
  rw [get_race_slugs_for_year, mem_sortedUnique, List.mem_filterMap] at h
  rcases h with ⟨href, _, hm⟩
  exact matchSlug_valid hm

/-- Witness for C9 on a concrete discovered slug. -/
theorem get_race_slugs_for_year_valid_witness : isValidSlug "abou-dhabi" = true :=
  get_race_slugs_for_year_valid 2025 ["/en/2025/abou-dhabi/classement.aspx"]
    "abou-dhabi" (by decide)
